import Mathlib

/-!
Verification of the `Solution` analyzer of `MCF_lib_ext.py` (the
multi-commodity-flow solution validator of the optimal-logistic-network
contest).  Real-valued quantities (volumes, distances, times, tariffs,
costs) are modelled by rationals; office identifiers by naturals; the
pandas lookup tables (`matrix_df`, `offices_df`, `df_tare`) by an
edge-indexed partial function and by association lists in row order.
Python dictionaries are modelled by association lists without duplicate
keys; `dict` insertion appends, assignment updates the (unique) entry of
the key in place.
-/

namespace MCF

/-- One entry of `paths`: a flow with keys `src`, `dst`, `volume`,
`path_nodes`. -/
structure Path where
  src : Nat
  dst : Nat
  volume : ℚ
  path_nodes : List Nat
  deriving DecidableEq, Repr

/-- One row of `matrix_df`: the columns read by the analyzer. -/
structure EdgeAttrs where
  distance : ℚ
  time : ℚ
  price_per_km : ℚ
  deriving DecidableEq, Repr

/-- The table `matrix_df` as a lookup from a directed edge to its row; `none` models a
`KeyError` of `matrix_df.loc[s, t]`. -/
abbrev MatrixDf : Type := Nat × Nat → Option EdgeAttrs

/-- One value of the `transport_legs` dict.  `vehicles` and `sum_cost` are
filled by the second loop of `_reconstruct_transport_legs_from_paths`; until
then they hold 0. -/
structure Leg where
  distance : ℚ
  time : ℚ
  cost_per_km : ℚ
  sum_volume : ℚ
  reqs : List ((Nat × Nat) × ℚ)
  vehicles : ℤ
  sum_cost : ℚ
  deriving DecidableEq, Repr

/-- Association-list lookup: the value of the first entry with the key
(Python dicts hold one entry per key). -/
def alookup {α β : Type} [DecidableEq α] : List (α × β) → α → Option β
  | [], _ => none
  | (k, v) :: rest, key => if k = key then some v else alookup rest key

/-- Association-list in-place update of the first entry with the key
(Python dict item assignment for a present key). -/
def aupdate {α β : Type} [DecidableEq α] : List (α × β) → α → (β → β) → List (α × β)
  | [], _, _ => []
  | (k, v) :: rest, key, f =>
      if k = key then (k, f v) :: rest else (k, v) :: aupdate rest key f

/-- Python `d[k] = d.get(k, 0) + v` on a dict `d`: update the entry when the key is
present, append a fresh entry otherwise.  Models the accumulation into the
`defaultdict` counters of the analyzer. -/
def bump {α : Type} [DecidableEq α] (m : List (α × ℚ)) (k : α) (v : ℚ) : List (α × ℚ) :=
  match alookup m k with
  | some _ => aupdate m k (fun x => x + v)
  | none => m ++ [(k, v)]

/-- Python `[(path_nodes[i], path_nodes[i+1]) for i in range(len(path_nodes)-1)]`. -/
def pathEdges (nodes : List Nat) : List (Nat × Nat) :=
  nodes.zip nodes.tail

/-- The dict a fresh `transport_legs[key]` is set to: attributes from the
matrix row, `sum_volume = 0`, `reqs = []` (the derived fields still 0). -/
def freshLeg (a : EdgeAttrs) : Leg :=
  ⟨a.distance, a.time, a.price_per_km, 0, [], 0, 0⟩

/-- The two accumulation lines run for every resolved edge of a path:
`reqs.append(((src, dst), volume))` and `sum_volume += volume`. -/
def addReq (src dst : Nat) (volume : ℚ) (leg : Leg) : Leg :=
  { leg with reqs := leg.reqs ++ [((src, dst), volume)],
             sum_volume := leg.sum_volume + volume }

/-- The `transport_legs` dict. -/
abbrev LegMap : Type := List ((Nat × Nat) × Leg)

/-- The body of the inner edge loop of
`_reconstruct_transport_legs_from_paths`: create the entry on first sight
when the matrix resolves the edge, skip (`continue`) the edge on a
`KeyError`, then append the contribution and add the volume. -/
def processEdge (matrix_df : MatrixDf) (src dst : Nat) (volume : ℚ)
    (m : LegMap) (e : Nat × Nat) : LegMap :=
  match alookup m e with
  | some _ => aupdate m e (addReq src dst volume)
  | none =>
    match matrix_df e with
    | none => m
    | some a => aupdate (m ++ [(e, freshLeg a)]) e (addReq src dst volume)

/-- The per-path part of the first loop of
`_reconstruct_transport_legs_from_paths`. -/
def processPath (matrix_df : MatrixDf) (m : LegMap) (p : Path) : LegMap :=
  (pathEdges p.path_nodes).foldl (processEdge matrix_df p.src p.dst p.volume) m

/-- Method `_reconstruct_transport_legs_from_paths` before its final loop. -/
def reconstruct_transport_legs0 (matrix_df : MatrixDf) (paths : List Path) : LegMap :=
  paths.foldl (processPath matrix_df) []

/-- The final loop of `_reconstruct_transport_legs_from_paths`:
`vehicles = ceil(sum_volume / vehicle_capacity)` and
`sum_cost = vehicles * cost_per_km * distance / 1000.0`. -/
def finalizeLeg (vehicle_capacity : ℚ) (leg : Leg) : Leg :=
  { leg with vehicles := ⌈leg.sum_volume / vehicle_capacity⌉,
             sum_cost := (⌈leg.sum_volume / vehicle_capacity⌉ : ℚ) *
               leg.cost_per_km * leg.distance / 1000 }

/-- Method `_reconstruct_transport_legs_from_paths`. -/
def reconstruct_transport_legs (matrix_df : MatrixDf) (vehicle_capacity : ℚ)
    (paths : List Path) : LegMap :=
  (reconstruct_transport_legs0 matrix_df paths).map
    (fun e => (e.1, finalizeLeg vehicle_capacity e.2))

/-- Method `_reconstruct_reqs_from_paths`: accumulate every path volume into the
dict at key `(src, dst)`. -/
def reconstruct_reqs_from_paths (paths : List Path) : List ((Nat × Nat) × ℚ) :=
  paths.foldl (fun reqs p => bump reqs (p.src, p.dst) p.volume) []

/-- One row of `offices_df`: the columns read by the analyzer. -/
structure OfficeRec where
  transfer_price : ℚ
  transfer_max : ℚ
  deriving DecidableEq, Repr

/-- The table `offices_df` in row order.  An absent table (`offices_df is None`)
behaves exactly like the empty list: both yield transfer cost 0 and no
violations. -/
abbrev OfficesDf : Type := List (Nat × OfficeRec)

/-- Python `path_nodes[1:-1] if len(path_nodes) > 2 else []`. -/
def transitNodes (p : Path) : List Nat :=
  if 2 < p.path_nodes.length then p.path_nodes.tail.dropLast else []

/-- Direction of a node throughput violation. -/
inductive Direction : Type
  | inbound
  | outbound
  deriving DecidableEq, Repr

/-- One entry of `transfer_violations`: the node, the direction, the actual
flow volume and the capacity named by the message string. -/
structure Violation where
  node : Nat
  dir : Direction
  actual : ℚ
  capacity : ℚ
  deriving DecidableEq, Repr

/-- The body of the transit-node loop of `_calculate_transfer_costs`: add
`volume * transfer_price` when the node has an offices row, and accumulate
the node's inbound and outbound flow.  The state is
`(total_transfer_cost, node_in_flow, node_out_flow)`. -/
def transferStep (offices_df : OfficesDf) (volume : ℚ)
    (st : ℚ × List (Nat × ℚ) × List (Nat × ℚ)) (node : Nat) :
    ℚ × List (Nat × ℚ) × List (Nat × ℚ) :=
  let tc := match alookup offices_df node with
    | some r => st.1 + volume * r.transfer_price
    | none => st.1
  (tc, bump st.2.1 node volume, bump st.2.2 node volume)

/-- Method `_calculate_transfer_costs`: the accumulation pass over all paths'
transit nodes followed by the per-office capacity checks, returning
`(total_transfer_cost, transfer_violations)`. -/
def calculate_transfer_costs (offices_df : OfficesDf) (paths : List Path) :
    ℚ × List Violation :=
  let st := paths.foldl
    (fun st p => (transitNodes p).foldl (transferStep offices_df p.volume) st)
    (0, [], [])
  let violations := (offices_df.map (fun o =>
    (match alookup st.2.1 o.1 with
     | some f => if f > o.2.transfer_max then
         [Violation.mk o.1 Direction.inbound f o.2.transfer_max] else []
     | none => []) ++
    (match alookup st.2.2 o.1 with
     | some f => if f > o.2.transfer_max then
         [Violation.mk o.1 Direction.outbound f o.2.transfer_max] else []
     | none => []))).flatten
  (st.1, violations)

/-- Field `self.total_volume`. -/
def total_volume (paths : List Path) : ℚ :=
  (paths.map (fun p => p.volume)).sum

/-- Field `self.total_vehicles`. -/
def total_vehicles (matrix_df : MatrixDf) (vehicle_capacity : ℚ)
    (paths : List Path) : ℤ :=
  ((reconstruct_transport_legs matrix_df vehicle_capacity paths).map
    (fun e => e.2.vehicles)).sum

/-- Field `self.total_distance`. -/
def total_distance (matrix_df : MatrixDf) (vehicle_capacity : ℚ)
    (paths : List Path) : ℚ :=
  ((reconstruct_transport_legs matrix_df vehicle_capacity paths).map
    (fun e => e.2.distance * (e.2.vehicles : ℚ))).sum

/-- Field `self.total_time`. -/
def total_time (matrix_df : MatrixDf) (vehicle_capacity : ℚ)
    (paths : List Path) : ℚ :=
  ((reconstruct_transport_legs matrix_df vehicle_capacity paths).map
    (fun e => e.2.time * (e.2.vehicles : ℚ))).sum

/-- Field `self.transport_cost`. -/
def transport_cost (matrix_df : MatrixDf) (vehicle_capacity : ℚ)
    (paths : List Path) : ℚ :=
  ((reconstruct_transport_legs matrix_df vehicle_capacity paths).map
    (fun e => e.2.sum_cost)).sum

/-- Field `self.transfer_cost`. -/
def transfer_cost (offices_df : OfficesDf) (paths : List Path) : ℚ :=
  (calculate_transfer_costs offices_df paths).1

/-- Field `self.transfer_violations`. -/
def transfer_violations (offices_df : OfficesDf) (paths : List Path) :
    List Violation :=
  (calculate_transfer_costs offices_df paths).2

/-- Field `self.total_cost`. -/
def total_cost (matrix_df : MatrixDf) (offices_df : OfficesDf)
    (vehicle_capacity : ℚ) (paths : List Path) : ℚ :=
  transport_cost matrix_df vehicle_capacity paths + transfer_cost offices_df paths

/-- Field `self.avg_delivery_time_per_req`:
`total_time / len(reqs.keys()) if reqs else 0`. -/
def avg_delivery_time_per_req (matrix_df : MatrixDf) (vehicle_capacity : ℚ)
    (paths : List Path) : ℚ :=
  if reconstruct_reqs_from_paths paths = [] then 0
  else total_time matrix_df vehicle_capacity paths /
    ((reconstruct_reqs_from_paths paths).length : ℚ)

/-- Field `self.avg_delivery_time_per_volume`:
`total_time / sum(reqs.values()) if sum(reqs.values()) > 0 else 0`. -/
def avg_delivery_time_per_volume (matrix_df : MatrixDf) (vehicle_capacity : ℚ)
    (paths : List Path) : ℚ :=
  if 0 < ((reconstruct_reqs_from_paths paths).map (fun e => e.2)).sum then
    total_time matrix_df vehicle_capacity paths /
      ((reconstruct_reqs_from_paths paths).map (fun e => e.2)).sum
  else 0

/-- Field `self.paths_per_req`: `len(paths) / len(reqs.keys()) if reqs else 0`. -/
def paths_per_req (paths : List Path) : ℚ :=
  if reconstruct_reqs_from_paths paths = [] then 0
  else (paths.length : ℚ) / ((reconstruct_reqs_from_paths paths).length : ℚ)

/-- Field `self.vehicle_utilization`:
`min((total_volume / total_capacity * 100) if total_capacity > 0 else 0.0, 100.0)`
with `total_capacity = total_vehicles * vehicle_capacity`. -/
def vehicle_utilization (matrix_df : MatrixDf) (vehicle_capacity : ℚ)
    (paths : List Path) : ℚ :=
  let total_capacity := (total_vehicles matrix_df vehicle_capacity paths : ℚ) *
    vehicle_capacity
  min (if total_capacity > 0 then
        total_volume paths / total_capacity * 100 else 0) 100

/-- Method `count_underloaded_legs`: legs with `sum_volume < threshold * vehicle_capacity`. -/
def count_underloaded_legs (matrix_df : MatrixDf) (vehicle_capacity : ℚ)
    (paths : List Path) (threshold : ℚ) : Nat :=
  ((reconstruct_transport_legs matrix_df vehicle_capacity paths).filter
    (fun e => e.2.sum_volume < threshold * vehicle_capacity)).length

/-- Field `self.cost_per_cubic_meter`: `total_cost / total_volume` when
`total_volume > 0`, else the sentinel `float('inf')`, modelled as `none`. -/
def cost_per_cubic_meter (matrix_df : MatrixDf) (offices_df : OfficesDf)
    (vehicle_capacity : ℚ) (paths : List Path) : Option ℚ :=
  if 0 < total_volume paths then
    some (total_cost matrix_df offices_df vehicle_capacity paths / total_volume paths)
  else none

/-- The metric fields `_compute_metrics` caches on the instance
(`cost_per_cubic_meter = none` stands for the `float('inf')` sentinel). -/
structure Metrics where
  total_volume : ℚ
  total_vehicles : ℤ
  total_distance : ℚ
  total_time : ℚ
  transport_cost : ℚ
  transfer_cost : ℚ
  transfer_violations : List Violation
  total_cost : ℚ
  avg_delivery_time_per_req : ℚ
  avg_delivery_time_per_volume : ℚ
  paths_per_req : ℚ
  vehicle_utilization : ℚ
  underloaded_legs : Nat
  cost_per_cubic_meter : Option ℚ
  deriving DecidableEq, Repr

/-- Method `_compute_metrics` (the default underload threshold is `0.3`). -/
def compute_metrics (matrix_df : MatrixDf) (offices_df : OfficesDf)
    (vehicle_capacity : ℚ) (paths : List Path) : Metrics :=
  ⟨total_volume paths,
   total_vehicles matrix_df vehicle_capacity paths,
   total_distance matrix_df vehicle_capacity paths,
   total_time matrix_df vehicle_capacity paths,
   transport_cost matrix_df vehicle_capacity paths,
   transfer_cost offices_df paths,
   transfer_violations offices_df paths,
   total_cost matrix_df offices_df vehicle_capacity paths,
   avg_delivery_time_per_req matrix_df vehicle_capacity paths,
   avg_delivery_time_per_volume matrix_df vehicle_capacity paths,
   paths_per_req paths,
   vehicle_utilization matrix_df vehicle_capacity paths,
   count_underloaded_legs matrix_df vehicle_capacity paths (3 / 10),
   cost_per_cubic_meter matrix_df offices_df vehicle_capacity paths⟩

/-- One finding of `validate_coverage`: the request key and the expected
and actual volumes named by the message string. -/
structure CoverageFinding where
  key : Nat × Nat
  expected : ℚ
  actual : ℚ
  deriving DecidableEq, Repr

/-- Method `validate_coverage`: rebuild the per-request actual volumes from the
paths, then emit one finding per reference row whose actual volume (0 when
the key has no flows) differs from the expected one by more than `1e-3`. -/
def validate_coverage (df_tare : List ((Nat × Nat) × ℚ)) (paths : List Path) :
    List CoverageFinding :=
  let actual := paths.foldl (fun m p => bump m (p.src, p.dst) p.volume) []
  df_tare.filterMap (fun t =>
    let act_vol := (alookup actual t.1).getD 0
    if |act_vol - t.2| > 1 / 1000 then some ⟨t.1, t.2, act_vol⟩ else none)

/-- One entry of a `legs` list of the external solution format. -/
structure ExtLeg where
  from_office_id : Nat
  to_office_id : Nat
  deriving DecidableEq, Repr

/-- One entry of the `flows` list of the external solution format. -/
structure ExtFlow where
  src_office_id : Nat
  dst_office_id : Nat
  avg_day_polybox_qty : ℚ
  legs : List ExtLeg
  deriving DecidableEq, Repr

/-- How `load_from_external_format` can fail: `indexError` models the
`IndexError` of `legs[0]` on an empty legs list, `valueError` the explicit
`ValueError` raised when the reconstructed path does not start at
`src_office_id` or end at `dst_office_id`. -/
inductive LoadError : Type
  | indexError
  | valueError
  deriving DecidableEq, Repr

/-- The reconstructed node sequence of one external flow:
`[legs[0]['from_office_id']] + [leg['to_office_id'] for leg in legs]`. -/
def reconstructedNodes (f : ExtFlow) : List Nat :=
  match f.legs with
  | [] => []
  | l0 :: rest => l0.from_office_id :: (l0 :: rest).map (fun l => l.to_office_id)

/-- The per-flow body of `load_from_external_format`: reconstruct the node
path from the legs and reject it when its endpoints do not match the flow's
`src_office_id`/`dst_office_id`. -/
def loadExternalFlow (f : ExtFlow) : Except LoadError Path :=
  match f.legs with
  | [] => Except.error LoadError.indexError
  | l0 :: rest =>
    let path_nodes := l0.from_office_id :: (l0 :: rest).map (fun l => l.to_office_id)
    if path_nodes.head? ≠ some f.src_office_id ∨
        path_nodes.getLast? ≠ some f.dst_office_id then
      Except.error LoadError.valueError
    else
      Except.ok ⟨f.src_office_id, f.dst_office_id, f.avg_day_polybox_qty, path_nodes⟩

/-- Classmethod `load_from_external_format`: convert the flows in order, raising on the
first bad one (a raised error propagates past the remaining flows). -/
def load_from_external_format : List ExtFlow → Except LoadError (List Path)
  | [] => Except.ok []
  | f :: rest =>
    match loadExternalFlow f with
    | Except.error e => Except.error e
    | Except.ok p =>
      match load_from_external_format rest with
      | Except.error e => Except.error e
      | Except.ok ps => Except.ok (p :: ps)

/-- The flat-path persisted form of one flow read back as an external flow:
`save_to_csv` writes the row `(src, dst, volume, path_nodes)` and the CSV
branch of `load_solution` turns it into
`{src_office_id, dst_office_id, avg_day_polybox_qty, legs}` with one leg per
consecutive node pair. -/
def pathToExternalFlow (p : Path) : ExtFlow :=
  ⟨p.src, p.dst, p.volume,
   (pathEdges p.path_nodes).map (fun e => ⟨e.1, e.2⟩)⟩

/-! ### Association-list lemmas -/

theorem alookup_nil {α β : Type} [DecidableEq α] (k : α) :
    alookup ([] : List (α × β)) k = none := rfl

theorem alookup_cons {α β : Type} [DecidableEq α] (k' k : α) (v : β)
    (m : List (α × β)) :
    alookup ((k', v) :: m) k = if k' = k then some v else alookup m k := rfl

theorem alookup_append_of_none {α β : Type} [DecidableEq α]
    {m : List (α × β)} {k : α} (l : List (α × β)) (h : alookup m k = none) :
    alookup (m ++ l) k = alookup l k := by
  induction m with
  | nil => simp
  | cons e m ih =>
    obtain ⟨k', v⟩ := e
    rw [alookup_cons] at h
    by_cases hk : k' = k
    · simp [hk] at h
    · simpa [alookup_cons, hk] using ih (by simpa [hk] using h)

theorem alookup_append_of_some {α β : Type} [DecidableEq α]
    {m : List (α × β)} {k : α} {v : β} (l : List (α × β))
    (h : alookup m k = some v) :
    alookup (m ++ l) k = some v := by
  induction m with
  | nil => simp [alookup] at h
  | cons e m ih =>
    obtain ⟨k', w⟩ := e
    rw [alookup_cons] at h
    by_cases hk : k' = k
    · simp only [hk] at h ⊢
      simpa [alookup_cons] using h
    · simpa [alookup_cons, hk] using ih (by simpa [hk] using h)

theorem alookup_aupdate_self {α β : Type} [DecidableEq α]
    (m : List (α × β)) (k : α) (f : β → β) :
    alookup (aupdate m k f) k = (alookup m k).map f := by
  induction m with
  | nil => simp [aupdate, alookup]
  | cons e m ih =>
    obtain ⟨k', v⟩ := e
    by_cases hk : k' = k
    · simp [aupdate, alookup_cons, hk]
    · simpa [aupdate, alookup_cons, hk] using ih

theorem alookup_aupdate_ne {α β : Type} [DecidableEq α]
    (m : List (α × β)) (k k' : α) (f : β → β) (h : k' ≠ k) :
    alookup (aupdate m k f) k' = alookup m k' := by
  induction m with
  | nil => simp [aupdate]
  | cons e m ih =>
    obtain ⟨a, v⟩ := e
    by_cases ha : a = k
    · subst ha
      simp [aupdate, alookup_cons, Ne.symm h]
    · simp [aupdate, alookup_cons, ha, ih]

theorem alookup_none_iff {α β : Type} [DecidableEq α]
    (m : List (α × β)) (k : α) :
    alookup m k = none ↔ k ∉ m.map (fun e => e.1) := by
  induction m with
  | nil => simp [alookup]
  | cons e m ih =>
    obtain ⟨k', v⟩ := e
    by_cases hk : k' = k
    · subst hk; simp [alookup_cons]
    · simp [alookup_cons, hk, ih, Ne.symm hk]

theorem bump_nil {α : Type} [DecidableEq α] (k : α) (v : ℚ) :
    bump ([] : List (α × ℚ)) k v = [(k, v)] := rfl

theorem bump_cons_eq {α : Type} [DecidableEq α] (k : α) (x v : ℚ)
    (m : List (α × ℚ)) : bump ((k, x) :: m) k v = (k, x + v) :: m := by
  simp [bump, alookup_cons, aupdate]

theorem bump_cons_ne {α : Type} [DecidableEq α] {k' k : α} (h : k' ≠ k)
    (x v : ℚ) (m : List (α × ℚ)) :
    bump ((k', x) :: m) k v = (k', x) :: bump m k v := by
  unfold bump
  rw [alookup_cons, if_neg h]
  cases hm : alookup m k with
  | some y => simp [aupdate, h]
  | none => simp [h]

theorem alookup_bump_self {α : Type} [DecidableEq α]
    (m : List (α × ℚ)) (k : α) (v : ℚ) :
    alookup (bump m k v) k = some ((alookup m k).getD 0 + v) := by
  unfold bump
  cases hm : alookup m k with
  | some x => simp [alookup_aupdate_self, hm]
  | none => rw [alookup_append_of_none _ hm]; simp [alookup_cons]

theorem alookup_bump_ne {α : Type} [DecidableEq α]
    {m : List (α × ℚ)} {k k' : α} (h : k' ≠ k) (v : ℚ) :
    alookup (bump m k v) k' = alookup m k' := by
  unfold bump
  cases hm : alookup m k with
  | some x => exact alookup_aupdate_ne m k k' _ h
  | none =>
    cases hm' : alookup m k' with
    | some y => exact alookup_append_of_some _ hm'
    | none => rw [alookup_append_of_none _ hm']; simp [alookup, Ne.symm h]

theorem bump_ne_nil {α : Type} [DecidableEq α]
    (m : List (α × ℚ)) (k : α) (v : ℚ) : bump m k v ≠ [] := by
  cases m with
  | nil => rw [bump_nil]; simp
  | cons e m =>
    obtain ⟨k', x⟩ := e
    by_cases hk : k' = k
    · subst hk; rw [bump_cons_eq]; simp
    · rw [bump_cons_ne hk]; simp

theorem sum_bump {α : Type} [DecidableEq α]
    (m : List (α × ℚ)) (k : α) (v : ℚ) :
    ((bump m k v).map (fun e => e.2)).sum = (m.map (fun e => e.2)).sum + v := by
  induction m with
  | nil => rw [bump_nil]; simp
  | cons e m ih =>
    obtain ⟨k', x⟩ := e
    by_cases hk : k' = k
    · subst hk; rw [bump_cons_eq]; simp; ring
    · rw [bump_cons_ne hk]; simp [ih]; ring

theorem keys_aupdate {α β : Type} [DecidableEq α]
    (m : List (α × β)) (k : α) (f : β → β) :
    (aupdate m k f).map (fun e => e.1) = m.map (fun e => e.1) := by
  induction m with
  | nil => simp [aupdate]
  | cons e m ih =>
    obtain ⟨k', v⟩ := e
    by_cases hk : k' = k <;> simp [aupdate, hk, ih]

theorem keys_bump {α : Type} [DecidableEq α]
    (m : List (α × ℚ)) (k : α) (v : ℚ) :
    (bump m k v).map (fun e => e.1) =
      if alookup m k = none then m.map (fun e => e.1) ++ [k]
      else m.map (fun e => e.1) := by
  unfold bump
  cases hm : alookup m k with
  | some x => simp [hm, keys_aupdate]
  | none => simp [hm]

/-! ### Characterization of the reconstructed leg map -/

/-- The contributions a traversal list `es` sends to the leg at edge `k`
from a flow `(src, dst, volume)`: one `((src, dst), volume)` pair per
occurrence of `k`. -/
def csOf (src dst : Nat) (volume : ℚ) (k : Nat × Nat) (es : List (Nat × Nat)) :
    List ((Nat × Nat) × ℚ) :=
  es.filterMap (fun e => if e = k then some ((src, dst), volume) else none)

/-- The contributions one path sends to the leg at edge `k`. -/
def contribsOfPath (k : Nat × Nat) (p : Path) : List ((Nat × Nat) × ℚ) :=
  csOf p.src p.dst p.volume k (pathEdges p.path_nodes)

/-- All contributions the whole flow set sends to the leg at edge `k`, in
processing order. -/
def contribs (k : Nat × Nat) (paths : List Path) : List ((Nat × Nat) × ℚ) :=
  (paths.map (contribsOfPath k)).flatten

/-- Record a batch of contributions on a leg. -/
def addContribs (leg : Leg) (cs : List ((Nat × Nat) × ℚ)) : Leg :=
  { leg with reqs := leg.reqs ++ cs,
             sum_volume := leg.sum_volume + (cs.map (fun c => c.2)).sum }

/-- The value the leg map holds at an edge, as a function of the previous
value at that edge, the edge's matrix row, and the incoming contributions. -/
def legAt (prev : Option Leg) (row : Option EdgeAttrs)
    (cs : List ((Nat × Nat) × ℚ)) : Option Leg :=
  match prev with
  | some leg => some (addContribs leg cs)
  | none =>
    match row with
    | none => none
    | some a => if cs = [] then none else some (addContribs (freshLeg a) cs)

theorem addContribs_nil (leg : Leg) : addContribs leg [] = leg := by
  simp [addContribs]

theorem addContribs_append (leg : Leg) (c1 c2 : List ((Nat × Nat) × ℚ)) :
    addContribs leg (c1 ++ c2) = addContribs (addContribs leg c1) c2 := by
  simp [addContribs, add_assoc]

theorem addContribs_single (s d : Nat) (v : ℚ) (leg : Leg) :
    addContribs leg [((s, d), v)] = addReq s d v leg := by
  simp [addContribs, addReq]

theorem legAt_append (prev : Option Leg) (row : Option EdgeAttrs)
    (c1 c2 : List ((Nat × Nat) × ℚ)) :
    legAt (legAt prev row c1) row c2 = legAt prev row (c1 ++ c2) := by
  cases prev with
  | some leg => simp [legAt, addContribs_append]
  | none =>
    cases row with
    | none => simp [legAt]
    | some a =>
      by_cases h1 : c1 = []
      · subst h1; simp [legAt]
      · by_cases h2 : c2 = [] <;>
          simp [legAt, h1, h2, addContribs_append, addContribs_nil]

theorem csOf_cons (s d : Nat) (v : ℚ) (k e : Nat × Nat) (es : List (Nat × Nat)) :
    csOf s d v k (e :: es) =
      (if e = k then [((s, d), v)] else []) ++ csOf s d v k es := by
  by_cases he : e = k <;> simp [csOf, he]

theorem contribs_cons (k : Nat × Nat) (p : Path) (ps : List Path) :
    contribs k (p :: ps) = contribsOfPath k p ++ contribs k ps := by
  simp [contribs]

theorem lookup_processEdge_self (matrix_df : MatrixDf) (s d : Nat) (v : ℚ)
    (m : LegMap) (k : Nat × Nat) :
    alookup (processEdge matrix_df s d v m k) k =
      legAt (alookup m k) (matrix_df k) [((s, d), v)] := by
  unfold processEdge
  cases hm : alookup m k with
  | some leg =>
    simp [legAt, alookup_aupdate_self, hm, addContribs_single]
  | none =>
    cases hx : matrix_df k with
    | none => simp [legAt, hm]
    | some a =>
      have h1 : alookup (m ++ [(k, freshLeg a)]) k = some (freshLeg a) := by
        rw [alookup_append_of_none _ hm]; simp [alookup_cons]
      simp [legAt, alookup_aupdate_self, h1, addContribs_single]

theorem lookup_processEdge_ne (matrix_df : MatrixDf) (s d : Nat) (v : ℚ)
    (m : LegMap) {k e : Nat × Nat} (h : k ≠ e) :
    alookup (processEdge matrix_df s d v m e) k = alookup m k := by
  unfold processEdge
  cases hm : alookup m e with
  | some leg => exact alookup_aupdate_ne m e k _ h
  | none =>
    cases hx : matrix_df e with
    | none => rfl
    | some a =>
      rw [alookup_aupdate_ne _ _ _ _ h]
      cases hk : alookup m k with
      | some leg => exact alookup_append_of_some _ hk
      | none => rw [alookup_append_of_none _ hk]; simp [alookup, Ne.symm h]

theorem lookup_foldl_processEdge (matrix_df : MatrixDf) (s d : Nat) (v : ℚ)
    (k : Nat × Nat) :
    ∀ (es : List (Nat × Nat)) (m : LegMap),
      alookup (es.foldl (processEdge matrix_df s d v) m) k =
        legAt (alookup m k) (matrix_df k) (csOf s d v k es) := by
  intro es
  induction es with
  | nil =>
    intro m
    cases hm : alookup m k with
    | some leg => simp [csOf, legAt, addContribs_nil, hm]
    | none => cases hx : matrix_df k <;> simp [csOf, legAt, hx, hm]
  | cons e es ih =>
    intro m
    rw [List.foldl_cons, ih, csOf_cons]
    by_cases he : e = k
    · subst he
      rw [lookup_processEdge_self, legAt_append]
      simp
    · rw [lookup_processEdge_ne matrix_df s d v m (Ne.symm he)]
      simp [he]

theorem lookup_processPath (matrix_df : MatrixDf) (m : LegMap) (p : Path)
    (k : Nat × Nat) :
    alookup (processPath matrix_df m p) k =
      legAt (alookup m k) (matrix_df k) (contribsOfPath k p) :=
  lookup_foldl_processEdge matrix_df p.src p.dst p.volume k
    (pathEdges p.path_nodes) m

theorem lookup_foldl_processPath (matrix_df : MatrixDf) (k : Nat × Nat) :
    ∀ (ps : List Path) (m : LegMap),
      alookup (ps.foldl (processPath matrix_df) m) k =
        legAt (alookup m k) (matrix_df k) (contribs k ps) := by
  intro ps
  induction ps with
  | nil =>
    intro m
    cases hm : alookup m k with
    | some leg => simp [contribs, legAt, addContribs_nil, hm]
    | none => cases hx : matrix_df k <;> simp [contribs, legAt, hx, hm]
  | cons p ps ih =>
    intro m
    rw [List.foldl_cons, ih, lookup_processPath, legAt_append, contribs_cons]

theorem lookup_legs0 (matrix_df : MatrixDf) (paths : List Path) (k : Nat × Nat) :
    alookup (reconstruct_transport_legs0 matrix_df paths) k =
      legAt none (matrix_df k) (contribs k paths) := by
  rw [reconstruct_transport_legs0, lookup_foldl_processPath]
  rfl

theorem alookup_map_value {α β : Type} [DecidableEq α]
    (m : List (α × β)) (f : β → β) (k : α) :
    alookup (m.map (fun e => (e.1, f e.2))) k = (alookup m k).map f := by
  induction m with
  | nil => simp [alookup]
  | cons e m ih =>
    obtain ⟨k', v⟩ := e
    by_cases hk : k' = k <;> simp [alookup_cons, hk, ih]

/-- The spec's description of the leg held at edge `k` (§3, §4.1, §4.2 of
the specification): present exactly when the edge reference resolves `k`
and some flow traverses it; attributes copied from the reference row;
contributions listed in traversal order; `totalVolume` their sum;
`vehicleCount = ceil(totalVolume / vehicleCapacity)`;
`totalCost = vehicleCount * costPerKm * distance / 1000`. -/
def legSpec (matrix_df : MatrixDf) (vehicle_capacity : ℚ) (paths : List Path)
    (k : Nat × Nat) : Option Leg :=
  match matrix_df k with
  | none => none
  | some a =>
    if contribs k paths = [] then none
    else
      some ⟨a.distance, a.time, a.price_per_km,
        ((contribs k paths).map (fun c => c.2)).sum,
        contribs k paths,
        ⌈((contribs k paths).map (fun c => c.2)).sum / vehicle_capacity⌉,
        (⌈((contribs k paths).map (fun c => c.2)).sum / vehicle_capacity⌉ : ℚ) *
          a.price_per_km * a.distance / 1000⟩

/-- The reconstructed leg map agrees with the spec's description at every
edge. -/
theorem lookup_legs_eq_legSpec (matrix_df : MatrixDf) (vehicle_capacity : ℚ)
    (paths : List Path) (k : Nat × Nat) :
    alookup (reconstruct_transport_legs matrix_df vehicle_capacity paths) k =
      legSpec matrix_df vehicle_capacity paths k := by
  rw [reconstruct_transport_legs, alookup_map_value, lookup_legs0]
  cases hx : matrix_df k with
  | none => simp [legAt, legSpec, hx]
  | some a =>
    by_cases hc : contribs k paths = []
    · simp [legAt, legSpec, hx, hc]
    · simp only [legAt, legSpec, hx, if_neg hc, Option.map_some]
      simp [finalizeLeg, addContribs, freshLeg]

/-! ### Membership invariants of the leg map -/

theorem mem_aupdate {α β : Type} [DecidableEq α]
    {m : List (α × β)} {k : α} {f : β → β} :
    ∀ x ∈ aupdate m k f, x ∈ m ∨ ∃ y, (k, y) ∈ m ∧ x = (k, f y) := by
  induction m with
  | nil => simp [aupdate]
  | cons e m ih =>
    obtain ⟨a, b⟩ := e
    intro x hx
    by_cases ha : a = k
    · subst ha
      rw [aupdate, if_pos rfl] at hx
      rcases List.mem_cons.mp hx with h | h
      · exact Or.inr ⟨b, List.mem_cons_self _ _, h⟩
      · exact Or.inl (List.mem_cons_of_mem _ h)
    · rw [aupdate, if_neg ha] at hx
      rcases List.mem_cons.mp hx with h | h
      · exact Or.inl (List.mem_cons.mpr (Or.inl h))
      · rcases ih x h with h' | ⟨y, hy, hxy⟩
        · exact Or.inl (List.mem_cons_of_mem _ h')
        · exact Or.inr ⟨y, List.mem_cons_of_mem _ hy, hxy⟩

theorem pred_processEdge (P : Leg → Prop) (matrix_df : MatrixDf)
    (s d : Nat) (v : ℚ) (m : LegMap) (e : Nat × Nat)
    (hfresh : ∀ a, P (freshLeg a))
    (hadd : ∀ leg, P leg → P (addReq s d v leg))
    (hm : ∀ x ∈ m, P x.2) :
    ∀ x ∈ processEdge matrix_df s d v m e, P x.2 := by
  intro x hx
  unfold processEdge at hx
  cases hml : alookup m e with
  | some leg =>
    rw [hml] at hx
    rcases mem_aupdate x hx with h | ⟨y, hy, hxy⟩
    · exact hm x h
    · subst hxy; exact hadd y (hm _ hy)
  | none =>
    rw [hml] at hx
    cases hmx : matrix_df e with
    | none => rw [hmx] at hx; exact hm x hx
    | some a =>
      rw [hmx] at hx
      rcases mem_aupdate x hx with h | ⟨y, hy, hxy⟩
      · rcases List.mem_append.mp h with h' | h'
        · exact hm x h'
        · simp at h'; subst h'; exact hfresh a
      · subst hxy
        rcases List.mem_append.mp hy with h' | h'
        · exact hadd y (hm _ h')
        · simp at h'; simp only [h']; exact hadd _ (hfresh a)

theorem pred_foldl_processEdge (P : Leg → Prop) (matrix_df : MatrixDf)
    (s d : Nat) (v : ℚ)
    (hfresh : ∀ a, P (freshLeg a))
    (hadd : ∀ leg, P leg → P (addReq s d v leg)) :
    ∀ (es : List (Nat × Nat)) (m : LegMap), (∀ x ∈ m, P x.2) →
      ∀ x ∈ es.foldl (processEdge matrix_df s d v) m, P x.2 := by
  intro es
  induction es with
  | nil => intro m hm; exact hm
  | cons e es ih =>
    intro m hm
    rw [List.foldl_cons]
    exact ih _ (pred_processEdge P matrix_df s d v m e hfresh hadd hm)

theorem pred_legs0 (P : Leg → Prop) (matrix_df : MatrixDf) (paths : List Path)
    (hfresh : ∀ a, P (freshLeg a))
    (hadd : ∀ p ∈ paths, ∀ leg, P leg → P (addReq p.src p.dst p.volume leg)) :
    ∀ x ∈ reconstruct_transport_legs0 matrix_df paths, P x.2 := by
  rw [reconstruct_transport_legs0]
  have main : ∀ (ps : List Path) (m : LegMap),
      (∀ p ∈ ps, ∀ leg, P leg → P (addReq p.src p.dst p.volume leg)) →
      (∀ x ∈ m, P x.2) → ∀ x ∈ ps.foldl (processPath matrix_df) m, P x.2 := by
    intro ps
    induction ps with
    | nil => intro m _ hm; exact hm
    | cons p ps ih =>
      intro m hps hm
      rw [List.foldl_cons]
      refine ih _ (fun q hq => hps q (List.mem_cons_of_mem _ hq)) ?_
      exact pred_foldl_processEdge P matrix_df p.src p.dst p.volume hfresh
        (hps p (List.mem_cons_self _ _)) _ m hm
  exact main paths [] hadd (by simp)

theorem legs0_sum_volume_eq (matrix_df : MatrixDf) (paths : List Path) :
    ∀ x ∈ reconstruct_transport_legs0 matrix_df paths,
      x.2.sum_volume = (x.2.reqs.map (fun c => c.2)).sum := by
  refine pred_legs0 (fun leg => leg.sum_volume = (leg.reqs.map (fun c => c.2)).sum)
    matrix_df paths (fun a => by simp [freshLeg]) ?_
  intro p _ leg h
  simp [addReq, h]

theorem legs0_sum_volume_nonneg (matrix_df : MatrixDf) (paths : List Path)
    (hv : ∀ p ∈ paths, 0 ≤ p.volume) :
    ∀ x ∈ reconstruct_transport_legs0 matrix_df paths, 0 ≤ x.2.sum_volume := by
  refine pred_legs0 (fun leg => 0 ≤ leg.sum_volume) matrix_df paths
    (fun a => by simp [freshLeg]) ?_
  intro p hp leg h
  simp only [addReq]
  exact add_nonneg h (hv p hp)

theorem mem_legs (matrix_df : MatrixDf) (vehicle_capacity : ℚ)
    (paths : List Path) :
    ∀ x ∈ reconstruct_transport_legs matrix_df vehicle_capacity paths,
      ∃ leg0, (x.1, leg0) ∈ reconstruct_transport_legs0 matrix_df paths ∧
        x.2 = finalizeLeg vehicle_capacity leg0 := by
  intro x hx
  rw [reconstruct_transport_legs] at hx
  rcases List.mem_map.mp hx with ⟨y, hy, hxy⟩
  exact ⟨y.2, by simpa [← hxy] using hy, by simp [← hxy]⟩

/-! ### Characterization of the request aggregate -/

/-- The spec's "actual aggregated flow volume" of a request key: the sum of
the volumes of all flows with that `(source, destination)` pair. -/
def aggregated_volume (k : Nat × Nat) (paths : List Path) : ℚ :=
  ((paths.filter (fun p => (p.src, p.dst) = k)).map (fun p => p.volume)).sum

theorem aggregated_volume_cons (k : Nat × Nat) (p : Path) (ps : List Path) :
    aggregated_volume k (p :: ps) =
      (if (p.src, p.dst) = k then p.volume else 0) + aggregated_volume k ps := by
  by_cases h : (p.src, p.dst) = k <;>
    simp [aggregated_volume, List.filter_cons, h]

theorem reqs_fold_getD :
    ∀ (ps : List Path) (m : List ((Nat × Nat) × ℚ)) (k : Nat × Nat),
      (alookup (ps.foldl (fun m p => bump m (p.src, p.dst) p.volume) m) k).getD 0 =
        (alookup m k).getD 0 + aggregated_volume k ps := by
  intro ps
  induction ps with
  | nil => intro m k; simp [aggregated_volume]
  | cons p ps ih =>
    intro m k
    rw [List.foldl_cons, ih, aggregated_volume_cons]
    by_cases hk : (p.src, p.dst) = k
    · rw [if_pos hk, hk, alookup_bump_self]
      simp; ring
    · rw [if_neg hk, alookup_bump_ne (fun h => hk h.symm)]
      simp

theorem reqs_fold_none_iff :
    ∀ (ps : List Path) (m : List ((Nat × Nat) × ℚ)) (k : Nat × Nat),
      alookup (ps.foldl (fun m p => bump m (p.src, p.dst) p.volume) m) k = none ↔
        alookup m k = none ∧ ps.filter (fun p => (p.src, p.dst) = k) = [] := by
  intro ps
  induction ps with
  | nil => intro m k; simp
  | cons p ps ih =>
    intro m k
    rw [List.foldl_cons, ih]
    by_cases hk : (p.src, p.dst) = k
    · rw [hk, alookup_bump_self]
      simp [List.filter_cons, hk]
    · rw [alookup_bump_ne (fun h => hk h.symm)]
      simp [List.filter_cons, hk]

theorem reqs_fold_sum :
    ∀ (ps : List Path) (m : List ((Nat × Nat) × ℚ)),
      (((ps.foldl (fun m p => bump m (p.src, p.dst) p.volume) m)).map
        (fun e => e.2)).sum = (m.map (fun e => e.2)).sum + total_volume ps := by
  intro ps
  induction ps with
  | nil => intro m; simp [total_volume]
  | cons p ps ih =>
    intro m
    rw [List.foldl_cons, ih, sum_bump]
    simp [total_volume]
    ring

theorem mem_keys_reqs_fold :
    ∀ (ps : List Path) (m : List ((Nat × Nat) × ℚ)) (k : Nat × Nat),
      (k ∈ (ps.foldl (fun m p => bump m (p.src, p.dst) p.volume) m).map
          (fun e => e.1)) ↔
        (k ∈ m.map (fun e => e.1) ∨ k ∈ ps.map (fun p => (p.src, p.dst))) := by
  intro ps
  induction ps with
  | nil => intro m k; simp
  | cons p ps ih =>
    intro m k
    rw [List.foldl_cons, ih]
    have hb : k ∈ (bump m (p.src, p.dst) p.volume).map (fun e => e.1) ↔
        (k ∈ m.map (fun e => e.1) ∨ k = (p.src, p.dst)) := by
      rw [keys_bump]
      by_cases hm : alookup m (p.src, p.dst) = none
      · simp [hm, eq_comm]
      · have : (p.src, p.dst) ∈ m.map (fun e => e.1) := by
          by_contra hcon
          exact hm ((alookup_none_iff _ _).mpr hcon)
        rw [if_neg hm]
        constructor
        · intro h; exact Or.inl h
        · rintro (h | h)
          · exact h
          · rw [h]; exact this
    rw [hb]
    simp only [List.map_cons, List.mem_cons]
    tauto

theorem nodup_keys_reqs_fold :
    ∀ (ps : List Path) (m : List ((Nat × Nat) × ℚ)),
      ((m.map (fun e => e.1)).Nodup) →
      ((ps.foldl (fun m p => bump m (p.src, p.dst) p.volume) m).map
        (fun e => e.1)).Nodup := by
  intro ps
  induction ps with
  | nil => intro m hm; exact hm
  | cons p ps ih =>
    intro m hm
    rw [List.foldl_cons]
    refine ih _ ?_
    rw [keys_bump]
    by_cases hz : alookup m (p.src, p.dst) = none
    · rw [if_pos hz]
      have : (p.src, p.dst) ∉ m.map (fun e => e.1) := (alookup_none_iff _ _).mp hz
      simp [List.nodup_append, hm, this]
    · rw [if_neg hz]; exact hm

theorem reqs_fold_ne_nil :
    ∀ (ps : List Path) (m : List ((Nat × Nat) × ℚ)), m ≠ [] →
      ps.foldl (fun m p => bump m (p.src, p.dst) p.volume) m ≠ [] := by
  intro ps
  induction ps with
  | nil => intro m hm; exact hm
  | cons p ps ih =>
    intro m _
    rw [List.foldl_cons]
    exact ih _ (bump_ne_nil _ _ _)

theorem reconstruct_reqs_eq_nil_iff (paths : List Path) :
    reconstruct_reqs_from_paths paths = [] ↔ paths = [] := by
  cases paths with
  | nil => simp [reconstruct_reqs_from_paths]
  | cons p ps =>
    simp only [reconstruct_reqs_from_paths, List.foldl_cons]
    constructor
    · intro h
      exact absurd h (reqs_fold_ne_nil ps _ (bump_ne_nil _ _ _))
    · intro h; exact absurd h (by simp)

theorem length_reqs (paths : List Path) :
    (reconstruct_reqs_from_paths paths).length =
      (paths.map (fun p => (p.src, p.dst))).toFinset.card := by
  have hkeys : (reconstruct_reqs_from_paths paths).length =
      ((reconstruct_reqs_from_paths paths).map (fun e => e.1)).length :=
    (List.length_map _ _).symm
  have hnd : ((reconstruct_reqs_from_paths paths).map (fun e => e.1)).Nodup :=
    nodup_keys_reqs_fold paths [] (by simp)
  have hset : ((reconstruct_reqs_from_paths paths).map (fun e => e.1)).toFinset =
      (paths.map (fun p => (p.src, p.dst))).toFinset := by
    ext a
    simp only [List.mem_toFinset]
    rw [reconstruct_reqs_from_paths, mem_keys_reqs_fold]
    simp
  rw [hkeys, ← List.toFinset_card_of_nodup hnd, hset]

theorem alookup_reqs (paths : List Path) (k : Nat × Nat) :
    alookup (reconstruct_reqs_from_paths paths) k =
      if paths.filter (fun p => (p.src, p.dst) = k) = [] then none
      else some (aggregated_volume k paths) := by
  by_cases h : paths.filter (fun p => (p.src, p.dst) = k) = []
  · rw [if_pos h, reconstruct_reqs_from_paths]
    exact (reqs_fold_none_iff paths [] k).mpr ⟨rfl, h⟩
  · rw [if_neg h]
    have hg := reqs_fold_getD paths [] k
    rw [← reconstruct_reqs_from_paths] at hg
    cases hsome : alookup (reconstruct_reqs_from_paths paths) k with
    | none =>
      rw [reconstruct_reqs_from_paths] at hsome
      exact absurd ((reqs_fold_none_iff paths [] k).mp hsome).2 h
    | some x =>
      rw [hsome] at hg
      simp only [Option.getD_some] at hg
      rw [hg]
      simp [alookup]

/-! ### Characterization of the node throughput counters -/

/-- How often node `n` is transited by the flow set, weighted by volume:
the value both `node_in_flow[n]` and `node_out_flow[n]` accumulate. -/
def transit_flow (n : Nat) (paths : List Path) : ℚ :=
  (paths.map (fun p => ((transitNodes p).count n : ℚ) * p.volume)).sum

/-- Node `n` is a transit node of some flow (so the defaultdict holds a key
for it). -/
def transited (n : Nat) (paths : List Path) : Prop :=
  ∃ p ∈ paths, n ∈ transitNodes p

instance (n : Nat) (paths : List Path) : Decidable (transited n paths) := by
  unfold transited; infer_instance

theorem transferStep_proj (offices_df : OfficesDf) (v : ℚ)
    (st : ℚ × List (Nat × ℚ) × List (Nat × ℚ)) (n : Nat) :
    (transferStep offices_df v st n).2.1 = bump st.2.1 n v ∧
    (transferStep offices_df v st n).2.2 = bump st.2.2 n v := by
  constructor <;> rfl

theorem transfer_inner_proj (offices_df : OfficesDf) (v : ℚ) :
    ∀ (ns : List Nat) (st : ℚ × List (Nat × ℚ) × List (Nat × ℚ)),
      (ns.foldl (transferStep offices_df v) st).2.1 =
        ns.foldl (fun m n => bump m n v) st.2.1 ∧
      (ns.foldl (transferStep offices_df v) st).2.2 =
        ns.foldl (fun m n => bump m n v) st.2.2 := by
  intro ns
  induction ns with
  | nil => intro st; exact ⟨rfl, rfl⟩
  | cons n ns ih =>
    intro st
    rw [List.foldl_cons, List.foldl_cons, List.foldl_cons]
    rcases ih (transferStep offices_df v st n) with ⟨h1, h2⟩
    rw [h1, h2, (transferStep_proj offices_df v st n).1,
      (transferStep_proj offices_df v st n).2]
    exact ⟨rfl, rfl⟩

theorem transfer_fold_proj (offices_df : OfficesDf) :
    ∀ (ps : List Path) (st : ℚ × List (Nat × ℚ) × List (Nat × ℚ)),
      (ps.foldl (fun st p =>
          (transitNodes p).foldl (transferStep offices_df p.volume) st) st).2.1 =
        ps.foldl (fun m p =>
          (transitNodes p).foldl (fun m n => bump m n p.volume) m) st.2.1 ∧
      (ps.foldl (fun st p =>
          (transitNodes p).foldl (transferStep offices_df p.volume) st) st).2.2 =
        ps.foldl (fun m p =>
          (transitNodes p).foldl (fun m n => bump m n p.volume) m) st.2.2 := by
  intro ps
  induction ps with
  | nil => intro st; exact ⟨rfl, rfl⟩
  | cons p ps ih =>
    intro st
    rw [List.foldl_cons, List.foldl_cons, List.foldl_cons]
    rcases ih ((transitNodes p).foldl (transferStep offices_df p.volume) st) with ⟨h1, h2⟩
    rw [h1, h2, (transfer_inner_proj offices_df p.volume _ st).1,
      (transfer_inner_proj offices_df p.volume _ st).2]
    exact ⟨rfl, rfl⟩

theorem bumpfold_getD (v : ℚ) :
    ∀ (ns : List Nat) (m : List (Nat × ℚ)) (k : Nat),
      (alookup (ns.foldl (fun m n => bump m n v) m) k).getD 0 =
        (alookup m k).getD 0 + (ns.count k : ℚ) * v := by
  intro ns
  induction ns with
  | nil => intro m k; simp
  | cons n ns ih =>
    intro m k
    rw [List.foldl_cons, ih]
    by_cases hk : n = k
    · subst hk
      rw [alookup_bump_self]
      simp [List.count_cons]
      ring
    · rw [alookup_bump_ne (fun h => hk h.symm)]
      simp [List.count_cons, hk]

theorem bumpfold_none_iff (v : ℚ) :
    ∀ (ns : List Nat) (m : List (Nat × ℚ)) (k : Nat),
      alookup (ns.foldl (fun m n => bump m n v) m) k = none ↔
        alookup m k = none ∧ k ∉ ns := by
  intro ns
  induction ns with
  | nil => intro m k; simp
  | cons n ns ih =>
    intro m k
    rw [List.foldl_cons, ih]
    by_cases hk : n = k
    · subst hk
      rw [alookup_bump_self]
      simp
    · rw [alookup_bump_ne (fun h => hk h.symm)]
      have hkn : ¬ k = n := fun h => hk h.symm
      simp [hkn]

theorem nodeflow_getD :
    ∀ (ps : List Path) (m : List (Nat × ℚ)) (k : Nat),
      (alookup (ps.foldl (fun m p =>
          (transitNodes p).foldl (fun m n => bump m n p.volume) m) m) k).getD 0 =
        (alookup m k).getD 0 + transit_flow k ps := by
  intro ps
  induction ps with
  | nil => intro m k; simp [transit_flow]
  | cons p ps ih =>
    intro m k
    rw [List.foldl_cons, ih, bumpfold_getD]
    simp [transit_flow]
    ring

theorem nodeflow_none_iff :
    ∀ (ps : List Path) (m : List (Nat × ℚ)) (k : Nat),
      alookup (ps.foldl (fun m p =>
          (transitNodes p).foldl (fun m n => bump m n p.volume) m) m) k = none ↔
        alookup m k = none ∧ ¬ transited k ps := by
  intro ps
  induction ps with
  | nil => intro m k; simp [transited]
  | cons p ps ih =>
    intro m k
    rw [List.foldl_cons, ih, bumpfold_none_iff]
    simp only [transited, List.mem_cons]
    constructor
    · rintro ⟨⟨h1, h2⟩, h3⟩
      refine ⟨h1, ?_⟩
      rintro ⟨q, hq | hq, hqt⟩
      · subst hq; exact h2 hqt
      · exact h3 ⟨q, hq, hqt⟩
    · rintro ⟨h1, h2⟩
      refine ⟨⟨h1, fun hk => h2 ⟨p, Or.inl rfl, hk⟩⟩, ?_⟩
      rintro ⟨q, hq, hqt⟩
      exact h2 ⟨q, Or.inr hq, hqt⟩

theorem transit_flow_of_not_transited (k : Nat) (paths : List Path)
    (h : ¬ transited k paths) : transit_flow k paths = 0 := by
  rw [transit_flow]
  refine List.sum_eq_zero ?_
  intro x hx
  rcases List.mem_map.mp hx with ⟨p, hp, hpx⟩
  have : k ∉ transitNodes p := fun hk => h ⟨p, hp, hk⟩
  rw [← hpx, List.count_eq_zero.mpr this]
  simp

/-! ### The external solution format -/

theorem loadExternalFlow_of_ne_nil (f : ExtFlow) (h : f.legs ≠ []) :
    loadExternalFlow f =
      if (reconstructedNodes f).head? ≠ some f.src_office_id ∨
          (reconstructedNodes f).getLast? ≠ some f.dst_office_id then
        Except.error LoadError.valueError
      else
        Except.ok ⟨f.src_office_id, f.dst_office_id, f.avg_day_polybox_qty,
          reconstructedNodes f⟩ := by
  cases hl : f.legs with
  | nil => exact absurd hl h
  | cons l0 rest => simp [loadExternalFlow, reconstructedNodes, hl]

/-- Classmethod `load_from_external_format`, characterized: assuming no flow has an
empty legs list, the load rejects with the endpoint-mismatch error exactly
when some flow's reconstructed path has mismatched endpoints; on success it
returns exactly the reconstructed paths, and each of them starts at its
`src` and ends at its `dst`. -/
theorem load_external_spec (flows : List ExtFlow)
    (h : ∀ f ∈ flows, f.legs ≠ []) :
    (load_from_external_format flows = Except.error LoadError.valueError ↔
      ∃ f ∈ flows, ((reconstructedNodes f).head? ≠ some f.src_office_id ∨
        (reconstructedNodes f).getLast? ≠ some f.dst_office_id)) ∧
    (∀ ps, load_from_external_format flows = Except.ok ps →
      ps = flows.map (fun f => ⟨f.src_office_id, f.dst_office_id,
        f.avg_day_polybox_qty, reconstructedNodes f⟩)) ∧
    (∀ ps, load_from_external_format flows = Except.ok ps →
      ∀ p ∈ ps, p.path_nodes.head? = some p.src ∧
        p.path_nodes.getLast? = some p.dst) := by
  induction flows with
  | nil =>
    refine ⟨by simp [load_from_external_format], ?_, ?_⟩
    · intro ps hps
      rw [load_from_external_format] at hps
      injection hps with hps
      simp [← hps]
    · intro ps hps
      rw [load_from_external_format] at hps
      injection hps with hps
      intro p hp
      rw [← hps] at hp
      simp at hp
  | cons f fs ih =>
    have hf : f.legs ≠ [] := h f (List.mem_cons_self _ _)
    have hfs : ∀ g ∈ fs, g.legs ≠ [] := fun g hg => h g (List.mem_cons_of_mem _ hg)
    obtain ⟨ih1, ih2, ih3⟩ := ih hfs
    rw [load_from_external_format, loadExternalFlow_of_ne_nil f hf]
    by_cases hcond : (reconstructedNodes f).head? ≠ some f.src_office_id ∨
        (reconstructedNodes f).getLast? ≠ some f.dst_office_id
    · rw [if_pos hcond]
      refine ⟨?_, ?_, ?_⟩
      · simp only []
        constructor
        · intro _; exact ⟨f, List.mem_cons_self _ _, hcond⟩
        · intro _; trivial
      · intro ps hps; exact absurd hps (by simp)
      · intro ps hps; exact absurd hps (by simp)
    · rw [if_neg hcond]
      push_neg at hcond
      cases hrest : load_from_external_format fs with
      | error e =>
        refine ⟨?_, ?_, ?_⟩
        · constructor
          · intro he
            injection he with he
            rw [he] at hrest
            rcases ih1.mp hrest with ⟨g, hg, hgc⟩
            exact ⟨g, List.mem_cons_of_mem _ hg, hgc⟩
          · rintro ⟨g, hg, hgc⟩
            rcases List.mem_cons.mp hg with hgf | hgfs
            · subst hgf
              rcases hgc with hc | hc
              · exact absurd hcond.1 hc
              · exact absurd hcond.2 hc
            · rw [ih1.mpr ⟨g, hgfs, hgc⟩] at hrest
              injection hrest with hrest
              rw [hrest]
        · intro ps hps; exact absurd hps (by simp)
        · intro ps hps; exact absurd hps (by simp)
      | ok qs =>
        refine ⟨?_, ?_, ?_⟩
        · constructor
          · intro he; exact absurd he (by simp)
          · rintro ⟨g, hg, hgc⟩
            rcases List.mem_cons.mp hg with hgf | hgfs
            · subst hgf
              rcases hgc with hc | hc
              · exact absurd hcond.1 hc
              · exact absurd hcond.2 hc
            · rw [ih1.mpr ⟨g, hgfs, hgc⟩] at hrest
              exact absurd hrest (by simp)
        · intro ps hps
          injection hps with hps
          rw [← hps, List.map_cons, ih2 qs hrest]
        · intro ps hps
          injection hps with hps
          intro p hp
          rw [← hps] at hp
          rcases List.mem_cons.mp hp with hpf | hpq
          · subst hpf
            exact ⟨hcond.1, hcond.2⟩
          · exact ih3 qs hrest p hpq

theorem loadExternalFlow_pathToExternalFlow (p : Path)
    (h2 : 2 ≤ p.path_nodes.length)
    (hh : p.path_nodes.head? = some p.src)
    (hl : p.path_nodes.getLast? = some p.dst) :
    loadExternalFlow (pathToExternalFlow p) = Except.ok p := by
  obtain ⟨src, dst, vol, nodes⟩ := p
  simp only at h2 hh hl ⊢
  cases nodes with
  | nil => simp at h2
  | cons n0 t =>
    cases t with
    | nil => simp at h2
    | cons n1 rest =>
      have hsnd : ((n1 :: rest).zip rest).map (fun e => e.2) = rest :=
        List.map_snd_zip _ _ (by simp)
      simp only [List.head?_cons, Option.some.injEq] at hh
      subst hh
      simp only [pathToExternalFlow, pathEdges, List.tail_cons,
        List.zip_cons_cons, List.map_cons, loadExternalFlow, List.map_map]
      have hcomp : (((n1 :: rest).zip rest).map
          ((fun l => l.to_office_id) ∘ (fun e => (⟨e.1, e.2⟩ : ExtLeg)))) = rest := by
        simpa [Function.comp] using hsnd
      rw [hcomp]
      simp [hl]

theorem load_map_pathToExternalFlow (paths : List Path)
    (hwf : ∀ p ∈ paths, 2 ≤ p.path_nodes.length ∧
      p.path_nodes.head? = some p.src ∧ p.path_nodes.getLast? = some p.dst) :
    load_from_external_format (paths.map pathToExternalFlow) =
      Except.ok paths := by
  induction paths with
  | nil => rfl
  | cons p ps ih =>
    obtain ⟨h2, hh, hl⟩ := hwf p (List.mem_cons_self _ _)
    rw [List.map_cons, load_from_external_format,
      loadExternalFlow_pathToExternalFlow p h2 hh hl,
      ih (fun q hq => hwf q (List.mem_cons_of_mem _ hq))]

/-! ### The claims -/

/-- C1: for every constructed analyzer, every leg of the leg map satisfies
the three derived-field equations — `sum_volume` is the sum of the volumes
of its `reqs`, `vehicles = ceil(sum_volume / vehicle_capacity)`, and
`sum_cost = vehicles * cost_per_km * distance / 1000`; and with capacity 90
a leg of total volume 91 gets 2 vehicles, 90 gets 1, and 0 gets 0. -/
theorem C1_leg_field_equations (matrix_df : MatrixDf) (vehicle_capacity : ℚ)
    (paths : List Path) :
    (∀ k leg, (k, leg) ∈ reconstruct_transport_legs matrix_df vehicle_capacity paths →
      leg.sum_volume = (leg.reqs.map (fun c => c.2)).sum ∧
      leg.vehicles = ⌈leg.sum_volume / vehicle_capacity⌉ ∧
      leg.sum_cost = (leg.vehicles : ℚ) * leg.cost_per_km * leg.distance / 1000) ∧
    (finalizeLeg 90 ⟨0, 0, 0, 91, [], 0, 0⟩).vehicles = 2 ∧
    (finalizeLeg 90 ⟨0, 0, 0, 90, [], 0, 0⟩).vehicles = 1 ∧
    (finalizeLeg 90 ⟨0, 0, 0, 0, [], 0, 0⟩).vehicles = 0 := by
  refine ⟨?_, ?_, ?_, ?_⟩
  · intro k leg hmem
    obtain ⟨leg0, hmem0, hfin⟩ :=
      mem_legs matrix_df vehicle_capacity paths (k, leg) hmem
    have hsv := legs0_sum_volume_eq matrix_df paths (k, leg0) hmem0
    simp only at hfin hsv
    subst hfin
    refine ⟨by simpa [finalizeLeg] using hsv, rfl, ?_⟩
    simp [finalizeLeg]
  · simp only [finalizeLeg]
    rw [Int.ceil_eq_iff]
    norm_num
  · simp only [finalizeLeg]
    norm_num
  · simp only [finalizeLeg]
    norm_num

/-- The edge reference used by concrete examples: rows for the edges
`(0, 1)` and `(1, 2)` only. -/
def mtxEx : MatrixDf := fun e =>
  if e = (0, 1) then some ⟨1, 2, 3⟩
  else if e = (1, 2) then some ⟨4, 5, 6⟩
  else none

/-- C2: a flow set holding exactly one flow with path `[A, B, C]` and
volume `v`, both edges resolvable, yields exactly the legs `(A, B)` and
`(B, C)`, each with the single contribution `((A, C), v)` and total volume
`v`, and the request aggregate holds exactly `v` at key `(A, C)`. -/
theorem C2_single_flow_decomposition (A B C : Nat) (v : ℚ)
    (matrix_df : MatrixDf) (a1 a2 : EdgeAttrs) (vehicle_capacity : ℚ)
    (h1 : matrix_df (A, B) = some a1) (h2 : matrix_df (B, C) = some a2)
    (hne : (A, B) ≠ (B, C)) :
    reconstruct_transport_legs matrix_df vehicle_capacity
        [⟨A, C, v, [A, B, C]⟩] =
      [((A, B), ⟨a1.distance, a1.time, a1.price_per_km, v, [((A, C), v)],
        ⌈v / vehicle_capacity⌉,
        (⌈v / vehicle_capacity⌉ : ℚ) * a1.price_per_km * a1.distance / 1000⟩),
       ((B, C), ⟨a2.distance, a2.time, a2.price_per_km, v, [((A, C), v)],
        ⌈v / vehicle_capacity⌉,
        (⌈v / vehicle_capacity⌉ : ℚ) * a2.price_per_km * a2.distance / 1000⟩)] ∧
    reconstruct_reqs_from_paths [⟨A, C, v, [A, B, C]⟩] = [((A, C), v)] := by
  constructor
  · simp [reconstruct_transport_legs, reconstruct_transport_legs0,
      processPath, pathEdges, processEdge, alookup, aupdate, h1, h2, hne,
      addReq, freshLeg, finalizeLeg]
  · rfl

/-- Closed witness for C2 at `A = 0`, `B = 1`, `C = 2`, `v = 5`,
capacity 90, over the concrete edge reference `mtxEx`. -/
theorem C2_single_flow_decomposition_witness :
    reconstruct_transport_legs mtxEx 90 [⟨0, 2, 5, [0, 1, 2]⟩] =
      [((0, 1), ⟨1, 2, 3, 5, [((0, 2), 5)], ⌈(5 : ℚ) / 90⌉,
        (⌈(5 : ℚ) / 90⌉ : ℚ) * 3 * 1 / 1000⟩),
       ((1, 2), ⟨4, 5, 6, 5, [((0, 2), 5)], ⌈(5 : ℚ) / 90⌉,
        (⌈(5 : ℚ) / 90⌉ : ℚ) * 6 * 4 / 1000⟩)] ∧
    reconstruct_reqs_from_paths [⟨0, 2, 5, [0, 1, 2]⟩] = [((0, 2), 5)] :=
  C2_single_flow_decomposition 0 1 2 5 mtxEx ⟨1, 2, 3⟩ ⟨4, 5, 6⟩ 90
    rfl rfl (by decide)

/-- C10: the request aggregate is volume-preserving — the sum of its values
equals `total_volume`, the sum of all flow volumes — and therefore
`avg_delivery_time_per_volume` coincides with
`total_time / total_volume` (guarded by `total_volume > 0`). -/
theorem C10_aggregation_volume_preserving (matrix_df : MatrixDf)
    (vehicle_capacity : ℚ) (paths : List Path) :
    ((reconstruct_reqs_from_paths paths).map (fun e => e.2)).sum =
      total_volume paths ∧
    avg_delivery_time_per_volume matrix_df vehicle_capacity paths =
      (if 0 < total_volume paths then
        total_time matrix_df vehicle_capacity paths / total_volume paths
      else 0) := by
  have hsum : ((reconstruct_reqs_from_paths paths).map (fun e => e.2)).sum =
      total_volume paths := by
    have := reqs_fold_sum paths []
    simpa [reconstruct_reqs_from_paths] using this
  refine ⟨hsum, ?_⟩
  rw [avg_delivery_time_per_volume, hsum]

/-- C3: when some flow's path contains an edge missing from the edge
reference, construction still completes: the missing edge is absent from
the leg map, every resolvable edge still carries the leg the aggregation
rule prescribes (`legSpec`), and the flow's full volume is still
accumulated into the request aggregate at its `(source, destination)`
key. -/
theorem C3_missing_edge_skipped (matrix_df : MatrixDf) (vehicle_capacity : ℚ)
    (paths : List Path) (p : Path) (e k : Nat × Nat)
    (hp : p ∈ paths) (he : e ∈ pathEdges p.path_nodes)
    (hmiss : matrix_df e = none) (hk : matrix_df k ≠ none) :
    alookup (reconstruct_transport_legs matrix_df vehicle_capacity paths) e =
      none ∧
    alookup (reconstruct_transport_legs matrix_df vehicle_capacity paths) k =
      legSpec matrix_df vehicle_capacity paths k ∧
    alookup (reconstruct_reqs_from_paths paths) (p.src, p.dst) =
      some (aggregated_volume (p.src, p.dst) paths) := by
  refine ⟨?_, lookup_legs_eq_legSpec matrix_df vehicle_capacity paths k, ?_⟩
  · rw [lookup_legs_eq_legSpec]
    simp [legSpec, hmiss]
  · rw [alookup_reqs]
    have hmem : p ∈ paths.filter (fun q => (q.src, q.dst) = (p.src, p.dst)) :=
      List.mem_filter.mpr ⟨hp, by simp⟩
    rw [if_neg (List.ne_nil_of_mem hmem)]

/-- Closed witness for C3: a single two-leg flow `[0, 1, 2]` of volume 7
over an edge reference resolving only `(1, 2)`. -/
theorem C3_missing_edge_skipped_witness :
    alookup (reconstruct_transport_legs
        (fun e => if e = (1, 2) then some ⟨4, 5, 6⟩ else none) 90
        [⟨0, 2, 7, [0, 1, 2]⟩]) (0, 1) = none ∧
    alookup (reconstruct_transport_legs
        (fun e => if e = (1, 2) then some ⟨4, 5, 6⟩ else none) 90
        [⟨0, 2, 7, [0, 1, 2]⟩]) (1, 2) =
      legSpec (fun e => if e = (1, 2) then some ⟨4, 5, 6⟩ else none) 90
        [⟨0, 2, 7, [0, 1, 2]⟩] (1, 2) ∧
    alookup (reconstruct_reqs_from_paths [⟨0, 2, 7, [0, 1, 2]⟩]) (0, 2) =
      some (aggregated_volume (0, 2) [⟨0, 2, 7, [0, 1, 2]⟩]) :=
  C3_missing_edge_skipped
    (fun e => if e = (1, 2) then some ⟨4, 5, 6⟩ else none) 90
    [⟨0, 2, 7, [0, 1, 2]⟩] ⟨0, 2, 7, [0, 1, 2]⟩ (0, 1) (1, 2)
    (by decide) (by decide) (by decide) (by decide)

/-- C4: `validate_coverage` returns exactly one finding per reference entry
whose aggregated actual volume (0 when the key has no flows) differs from
the expected one by strictly more than `1e-3`, naming the key and both
volumes; an entry within tolerance yields none (expected 50 with actual
49.9995 gives no finding, actual 49.9 gives exactly one). -/
theorem C4_coverage_findings (df_tare : List ((Nat × Nat) × ℚ))
    (paths : List Path) :
    validate_coverage df_tare paths = df_tare.filterMap (fun t =>
      if |aggregated_volume t.1 paths - t.2| > 1 / 1000 then
        some ⟨t.1, t.2, aggregated_volume t.1 paths⟩ else none) ∧
    validate_coverage [((0, 1), 50)] [⟨0, 1, 99999 / 2000, [0, 1]⟩] = [] ∧
    validate_coverage [((0, 1), 50)] [⟨0, 1, 499 / 10, [0, 1]⟩] =
      [⟨(0, 1), 50, 499 / 10⟩] := by
  refine ⟨?_,
    by norm_num [validate_coverage, List.filterMap, bump, alookup, aupdate, abs],
    by norm_num [validate_coverage, List.filterMap, bump, alookup, aupdate, abs]⟩
  have hact : ∀ k : Nat × Nat,
      (alookup (paths.foldl (fun m p => bump m (p.src, p.dst) p.volume) []) k).getD 0 =
        aggregated_volume k paths := by
    intro k
    have := reqs_fold_getD paths [] k
    simpa [alookup] using this
  simp only [validate_coverage]
  congr 1
  funext t
  rw [hact t.1]

/-- C5: for every node of the node reference table, the capacity check
compares the accumulated inbound and outbound transit volumes independently
against `transfer_max` and emits one finding per direction that strictly
exceeds it, naming node, direction, actual volume and capacity; and the
concrete node with capacity 10 and inbound volume 15 gets exactly one
inbound finding carrying 15 and 10. -/
theorem C5_node_capacity_findings (offices_df : OfficesDf) (paths : List Path)
    (hcap : ∀ o ∈ offices_df, 0 ≤ o.2.transfer_max) :
    transfer_violations offices_df paths = (offices_df.map (fun o =>
      (if transit_flow o.1 paths > o.2.transfer_max then
        [Violation.mk o.1 Direction.inbound (transit_flow o.1 paths)
          o.2.transfer_max] else []) ++
      (if transit_flow o.1 paths > o.2.transfer_max then
        [Violation.mk o.1 Direction.outbound (transit_flow o.1 paths)
          o.2.transfer_max] else []))).flatten ∧
    (transfer_violations [(5, ⟨0, 10⟩)] [⟨0, 1, 15, [0, 5, 1]⟩]).filter
      (fun viol => viol.dir = Direction.inbound) =
      [⟨5, Direction.inbound, 15, 10⟩] := by
  refine ⟨?_, by decide⟩
  simp only [transfer_violations, calculate_transfer_costs]
  rcases transfer_fold_proj offices_df paths (0, [], []) with ⟨hp1, hp2⟩
  rw [hp1, hp2]
  congr 1
  refine List.map_congr_left ?_
  intro o ho
  cases hlk : alookup (paths.foldl (fun m p =>
      (transitNodes p).foldl (fun m n => bump m n p.volume) m) []) o.1 with
  | none =>
    have hnt : ¬ transited o.1 paths :=
      ((nodeflow_none_iff paths [] o.1).mp (by simpa using hlk)).2
    have hz : transit_flow o.1 paths = 0 :=
      transit_flow_of_not_transited _ _ hnt
    have hno : ¬ (transit_flow o.1 paths > o.2.transfer_max) := by
      rw [hz]
      exact not_lt.mpr (hcap o ho)
    simp [hlk, hno]
  | some fval =>
    have hg := nodeflow_getD paths [] o.1
    rw [hlk] at hg
    simp only [Option.getD_some] at hg
    have hfv : fval = transit_flow o.1 paths := by simpa [alookup] using hg
    subst hfv
    simp

/-- Closed witness for C5: one office of capacity 10 and one flow of
volume 15 transiting it. -/
theorem C5_node_capacity_findings_witness :
    transfer_violations [(5, ⟨0, 10⟩)] [⟨0, 1, 15, [0, 5, 1]⟩] =
      (([(5, (⟨0, 10⟩ : OfficeRec))] : OfficesDf).map (fun o =>
        (if transit_flow o.1 [⟨0, 1, 15, [0, 5, 1]⟩] > o.2.transfer_max then
          [Violation.mk o.1 Direction.inbound
            (transit_flow o.1 [⟨0, 1, 15, [0, 5, 1]⟩]) o.2.transfer_max]
        else []) ++
        (if transit_flow o.1 [⟨0, 1, 15, [0, 5, 1]⟩] > o.2.transfer_max then
          [Violation.mk o.1 Direction.outbound
            (transit_flow o.1 [⟨0, 1, 15, [0, 5, 1]⟩]) o.2.transfer_max]
        else []))).flatten ∧
    (transfer_violations [(5, ⟨0, 10⟩)] [⟨0, 1, 15, [0, 5, 1]⟩]).filter
      (fun viol => viol.dir = Direction.inbound) =
      [⟨5, Direction.inbound, 15, 10⟩] :=
  C5_node_capacity_findings [(5, ⟨0, 10⟩)] [⟨0, 1, 15, [0, 5, 1]⟩] (by decide)

/-- C6: `vehicle_utilization` is 0 when the total vehicle count is 0,
equals `min(total_volume / (total_vehicles * vehicle_capacity) * 100, 100)`
when it is not, and never exceeds 100. -/
theorem C6_vehicle_utilization_clamped (matrix_df : MatrixDf)
    (vehicle_capacity : ℚ) (paths : List Path)
    (hcap : 0 < vehicle_capacity) (hv : ∀ p ∈ paths, 0 ≤ p.volume) :
    (total_vehicles matrix_df vehicle_capacity paths = 0 →
      vehicle_utilization matrix_df vehicle_capacity paths = 0) ∧
    (total_vehicles matrix_df vehicle_capacity paths ≠ 0 →
      vehicle_utilization matrix_df vehicle_capacity paths =
        min (total_volume paths /
          ((total_vehicles matrix_df vehicle_capacity paths : ℚ) *
            vehicle_capacity) * 100) 100) ∧
    vehicle_utilization matrix_df vehicle_capacity paths ≤ 100 := by
  have hveh : ∀ x ∈ reconstruct_transport_legs matrix_df vehicle_capacity paths,
      0 ≤ x.2.vehicles := by
    intro x hx
    obtain ⟨leg0, hm0, hfin⟩ :=
      mem_legs matrix_df vehicle_capacity paths x hx
    have hsv := legs0_sum_volume_nonneg matrix_df paths hv (x.1, leg0) hm0
    rw [hfin]
    exact Int.ceil_nonneg (div_nonneg hsv hcap.le)
  have htv : 0 ≤ total_vehicles matrix_df vehicle_capacity paths := by
    rw [total_vehicles]
    refine List.sum_nonneg ?_
    intro y hy
    rcases List.mem_map.mp hy with ⟨x, hx, hxy⟩
    rw [← hxy]
    exact hveh x hx
  refine ⟨?_, ?_, ?_⟩
  · intro h0
    simp only [vehicle_utilization]
    rw [h0]
    norm_num
  · intro hne
    have h1 : (1 : ℤ) ≤ total_vehicles matrix_df vehicle_capacity paths := by
      omega
    have hpos : (0 : ℚ) <
        (total_vehicles matrix_df vehicle_capacity paths : ℚ) *
          vehicle_capacity := by
      refine mul_pos ?_ hcap
      exact_mod_cast lt_of_lt_of_le zero_lt_one h1
    simp only [vehicle_utilization]
    rw [if_pos hpos]
  · simp only [vehicle_utilization]
    exact min_le_right _ _

/-- Closed witness for C6: one flow of volume 5 on the edge `(0, 1)` of
`mtxEx`, capacity 90. -/
theorem C6_vehicle_utilization_clamped_witness :
    (total_vehicles mtxEx 90 [⟨0, 1, 5, [0, 1]⟩] = 0 →
      vehicle_utilization mtxEx 90 [⟨0, 1, 5, [0, 1]⟩] = 0) ∧
    (total_vehicles mtxEx 90 [⟨0, 1, 5, [0, 1]⟩] ≠ 0 →
      vehicle_utilization mtxEx 90 [⟨0, 1, 5, [0, 1]⟩] =
        min ((total_volume [⟨0, 1, 5, [0, 1]⟩]) /
          ((total_vehicles mtxEx 90 [⟨0, 1, 5, [0, 1]⟩] : ℚ) * 90) * 100) 100) ∧
    vehicle_utilization mtxEx 90 [⟨0, 1, 5, [0, 1]⟩] ≤ 100 :=
  C6_vehicle_utilization_clamped mtxEx 90 [⟨0, 1, 5, [0, 1]⟩]
    (by norm_num) (by decide)

/-- C7: the ratio KPIs are total with explicit degenerate values —
`avg_delivery_time_per_req` is `total_time` over the number of distinct
request keys and 0 with no requests, `avg_delivery_time_per_volume` is
`total_time / total_volume` and 0 at zero total volume, and
`cost_per_cubic_meter` is `total_cost / total_volume` with the infinity
sentinel (`none`) at zero total volume. -/
theorem C7_ratio_kpis_total (matrix_df : MatrixDf) (offices_df : OfficesDf)
    (vehicle_capacity : ℚ) (paths : List Path)
    (hv : ∀ p ∈ paths, 0 ≤ p.volume) :
    (avg_delivery_time_per_req matrix_df vehicle_capacity paths =
      if paths = [] then 0
      else total_time matrix_df vehicle_capacity paths /
        (((paths.map (fun p => (p.src, p.dst))).toFinset.card : ℚ))) ∧
    (avg_delivery_time_per_volume matrix_df vehicle_capacity paths =
      if total_volume paths = 0 then 0
      else total_time matrix_df vehicle_capacity paths / total_volume paths) ∧
    (cost_per_cubic_meter matrix_df offices_df vehicle_capacity paths =
      if total_volume paths = 0 then none
      else some (total_cost matrix_df offices_df vehicle_capacity paths /
        total_volume paths)) := by
  have htv0 : 0 ≤ total_volume paths := by
    rw [total_volume]
    refine List.sum_nonneg ?_
    intro y hy
    rcases List.mem_map.mp hy with ⟨p, hp, hpy⟩
    rw [← hpy]
    exact hv p hp
  have hs : ((reconstruct_reqs_from_paths paths).map (fun e => e.2)).sum =
      total_volume paths := by
    have := reqs_fold_sum paths []
    simpa [reconstruct_reqs_from_paths] using this
  refine ⟨?_, ?_, ?_⟩
  · by_cases hp : paths = []
    · subst hp
      simp [avg_delivery_time_per_req, reconstruct_reqs_from_paths]
    · have hr : reconstruct_reqs_from_paths paths ≠ [] :=
        fun h => hp ((reconstruct_reqs_eq_nil_iff paths).mp h)
      rw [avg_delivery_time_per_req, if_neg hr, if_neg hp, length_reqs]
  · rw [avg_delivery_time_per_volume, hs]
    by_cases h0 : total_volume paths = 0
    · simp [h0]
    · have hlt : 0 < total_volume paths := lt_of_le_of_ne htv0 (Ne.symm h0)
      rw [if_pos hlt, if_neg h0]
  · rw [cost_per_cubic_meter]
    by_cases h0 : total_volume paths = 0
    · simp [h0]
    · have hlt : 0 < total_volume paths := lt_of_le_of_ne htv0 (Ne.symm h0)
      rw [if_pos hlt, if_neg h0]

/-- Closed witness for C7: one flow of volume 5 on the edge `(0, 1)` of
`mtxEx`, no offices, capacity 90. -/
theorem C7_ratio_kpis_total_witness :
    (avg_delivery_time_per_req mtxEx 90 [⟨0, 1, 5, [0, 1]⟩] =
      if ([⟨0, 1, 5, [0, 1]⟩] : List Path) = [] then 0
      else total_time mtxEx 90 [⟨0, 1, 5, [0, 1]⟩] /
        (((([⟨0, 1, 5, [0, 1]⟩] : List Path).map
          (fun p => (p.src, p.dst))).toFinset.card : ℚ))) ∧
    (avg_delivery_time_per_volume mtxEx 90 [⟨0, 1, 5, [0, 1]⟩] =
      if total_volume [⟨0, 1, 5, [0, 1]⟩] = 0 then 0
      else total_time mtxEx 90 [⟨0, 1, 5, [0, 1]⟩] /
        total_volume [⟨0, 1, 5, [0, 1]⟩]) ∧
    (cost_per_cubic_meter mtxEx [] 90 [⟨0, 1, 5, [0, 1]⟩] =
      if total_volume [⟨0, 1, 5, [0, 1]⟩] = 0 then none
      else some (total_cost mtxEx [] 90 [⟨0, 1, 5, [0, 1]⟩] /
        total_volume [⟨0, 1, 5, [0, 1]⟩])) :=
  C7_ratio_kpis_total mtxEx [] 90 [⟨0, 1, 5, [0, 1]⟩] (by decide)

/-- C8: exporting the flows as flat-path rows and re-importing them through
the accepted solution formats (the rows convert to structured flows, which
`load_from_external_format` turns back into paths) reproduces the original
flow set, so the recomputed Metrics Engine output is identical. -/
theorem C8_serialization_round_trip (matrix_df : MatrixDf)
    (offices_df : OfficesDf) (vehicle_capacity : ℚ) (paths : List Path)
    (hwf : ∀ p ∈ paths, 2 ≤ p.path_nodes.length ∧
      p.path_nodes.head? = some p.src ∧ p.path_nodes.getLast? = some p.dst) :
    load_from_external_format (paths.map pathToExternalFlow) =
      Except.ok paths ∧
    Except.map (compute_metrics matrix_df offices_df vehicle_capacity)
        (load_from_external_format (paths.map pathToExternalFlow)) =
      Except.ok (compute_metrics matrix_df offices_df vehicle_capacity paths) := by
  have h1 := load_map_pathToExternalFlow paths hwf
  exact ⟨h1, by rw [h1]; rfl⟩

/-- Closed witness for C8: one flow with path `[0, 1, 2]`. -/
theorem C8_serialization_round_trip_witness :
    load_from_external_format
        (([⟨0, 2, 5, [0, 1, 2]⟩] : List Path).map pathToExternalFlow) =
      Except.ok [⟨0, 2, 5, [0, 1, 2]⟩] ∧
    Except.map (compute_metrics mtxEx [] 90)
        (load_from_external_format
          (([⟨0, 2, 5, [0, 1, 2]⟩] : List Path).map pathToExternalFlow)) =
      Except.ok (compute_metrics mtxEx [] 90 [⟨0, 2, 5, [0, 1, 2]⟩]) :=
  C8_serialization_round_trip mtxEx [] 90 [⟨0, 2, 5, [0, 1, 2]⟩] (by decide)

/-- C9: when loading the structured form (no flow with an empty legs list),
each path is reconstructed as the first leg's `from_office_id` followed by
every leg's `to_office_id`; the load rejects with the endpoint error
exactly when some flow's reconstructed path does not start at its
`src_office_id` or end at its `dst_office_id`, and on success every
produced path has matched endpoints. -/
theorem C9_endpoint_validation (flows : List ExtFlow)
    (h : ∀ f ∈ flows, f.legs ≠ []) (ps : List Path) (p : Path) :
    (load_from_external_format flows = Except.error LoadError.valueError ↔
      ∃ f ∈ flows, ((reconstructedNodes f).head? ≠ some f.src_office_id ∨
        (reconstructedNodes f).getLast? ≠ some f.dst_office_id)) ∧
    (load_from_external_format flows = Except.ok ps →
      ps = flows.map (fun f => ⟨f.src_office_id, f.dst_office_id,
        f.avg_day_polybox_qty, reconstructedNodes f⟩)) ∧
    (load_from_external_format flows = Except.ok ps → p ∈ ps →
      p.path_nodes.head? = some p.src ∧
      p.path_nodes.getLast? = some p.dst) := by
  obtain ⟨h1, h2, h3⟩ := load_external_spec flows h
  exact ⟨h1, h2 ps, fun hok hp => h3 ps hok p hp⟩

/-- Closed witness for C9: a flow whose single leg `(0, 1)` does not reach
its declared destination 9, so loading rejects it. -/
theorem C9_endpoint_validation_witness :
    (load_from_external_format [⟨0, 9, 1, [⟨0, 1⟩]⟩] =
        Except.error LoadError.valueError ↔
      ∃ f ∈ ([⟨0, 9, 1, [⟨0, 1⟩]⟩] : List ExtFlow),
        ((reconstructedNodes f).head? ≠ some f.src_office_id ∨
          (reconstructedNodes f).getLast? ≠ some f.dst_office_id)) ∧
    (load_from_external_format [⟨0, 9, 1, [⟨0, 1⟩]⟩] = Except.ok [] →
      ([] : List Path) = ([⟨0, 9, 1, [⟨0, 1⟩]⟩] : List ExtFlow).map
        (fun f => ⟨f.src_office_id, f.dst_office_id,
          f.avg_day_polybox_qty, reconstructedNodes f⟩)) ∧
    (load_from_external_format [⟨0, 9, 1, [⟨0, 1⟩]⟩] = Except.ok [] →
      (⟨0, 0, 0, []⟩ : Path) ∈ ([] : List Path) →
      (⟨0, 0, 0, []⟩ : Path).path_nodes.head? =
        some (⟨0, 0, 0, []⟩ : Path).src ∧
      (⟨0, 0, 0, []⟩ : Path).path_nodes.getLast? =
        some (⟨0, 0, 0, []⟩ : Path).dst) :=
  C9_endpoint_validation [⟨0, 9, 1, [⟨0, 1⟩]⟩] (by decide) [] ⟨0, 0, 0, []⟩

end MCF
